import Mathlib

set_option autoImplicit false

/-!
Verification of the fiber-based task scheduler in
`src/thirdparty/FiberTaskingLib/source/task_scheduler.cpp` (namespace `ftl`).

The C++ code is shallowly embedded: pointer-mutated records (`ReadyFiberBundle`,
the per-worker queues, the thread-local storage) become immutable values threaded
through explicit state, and each scheduler operation becomes a Lean function on
those values.  Atomic loads and stores collapse to plain reads and writes of the
modelled fields; the interleaving-sensitive parts of each claim are settled on the
sequential code paths the claim names.
-/

namespace Ftl

/-- Number of consecutive failed pop attempts after which a worker yields or
sleeps (`kFailedPopAttemptsHeuristic` in `task_scheduler.cpp`, line 58). -/
def kFailedPopAttemptsHeuristic : Nat := 25

/-- Error code returned by `Init` on double initialization (line 59). -/
def kInitErrorDoubleCall : Int := -30

/-- Error code returned by `Init` when a worker thread cannot be created (line 60). -/
def kInitErrorFailedToCreateWorkerThread : Int := -60

/-- Modelled from the spec: `kInvalidIndex` is declared in the header
`ftl/task_scheduler.h`, which is not part of the sources; per the spec,
`GetCurrentThreadIndex` returns it when the calling thread is none of the
scheduler's threads, and it is the largest `unsigned` value. -/
def kInvalidIndex : Nat := 4294967295

/-- `TaskScheduler::ReadyFiberBundle`: the record tying a parked fiber to its
handshake flag and spin counter.  `Fiber` stands for the fiber pointer,
`FiberIsSwitched` for the `std::atomic<bool>`, `SpinCount` for the
`std::atomic<int>` (decremented through `fetch_sub`, so it may go negative). -/
structure ReadyFiberBundle where
  Fiber : Nat
  FiberIsSwitched : Bool
  SpinCount : Int
deriving DecidableEq, Repr

/-- The function slot of a `Task`.  In the C++ code this is a raw function
pointer; the three cases that matter to the scheduler are the null pointer, the
private `ReadyFiberDummyTask` sentinel (whose `ArgData` is always the
`ReadyFiberBundle*`, carried here inside the constructor), and any real task
function (with its opaque `ArgData`, both modelled as numbers). -/
inductive TaskFunction where
  | nullFn (arg : Nat)
  | readyFiberDummy (bundle : ReadyFiberBundle)
  | realFn (fnPtr : Nat) (arg : Nat)
deriving DecidableEq, Repr

/-- `ftl::Task`: a function pointer plus its argument (folded into
`TaskFunction` above). -/
structure Task where
  Function : TaskFunction
deriving DecidableEq, Repr

/-- Whether `task.Function == nullptr`. -/
def taskFunctionIsNull (t : Task) : Bool :=
  match t.Function with
  | .nullFn _ => true
  | _ => false

/-- `ftl::TaskBundle`: the unit stored in the queues.  `hasCounter` models
whether the `eastl::shared_ptr<TaskCounter>` member is non-null. -/
structure TaskBundle where
  TaskToExecute : Task
  hasCounter : Bool
deriving DecidableEq, Repr

/-- `TaskScheduler::EmptyQueueBehavior`. -/
inductive EmptyQueueBehavior where
  | Spin
  | Yield
  | Sleep
deriving DecidableEq, Repr

/-- `TaskScheduler::TaskIsReadyToExecute` (lines 645-656).  A bundle whose
function is not the `ReadyFiberDummyTask` sentinel is always ready.  For a
dummy the code evaluates
`FiberIsSwitched.load() && SpinCount.fetch_sub(1) <= 0`:
because `&&` short-circuits, `SpinCount` is decremented only when
`FiberIsSwitched` is true, and the comparison uses the value `fetch_sub`
returns, i.e. the value before the decrement.  The returned bundle carries the
mutation `fetch_sub` performed on the shared `ReadyFiberBundle`. -/
def TaskIsReadyToExecute (bundle : TaskBundle) : Bool × TaskBundle :=
  match bundle.TaskToExecute.Function with
  | .readyFiberDummy rfb =>
    if rfb.FiberIsSwitched then
      (decide (rfb.SpinCount ≤ 0),
       { bundle with TaskToExecute :=
          { Function := .readyFiberDummy { rfb with SpinCount := rfb.SpinCount - 1 } } })
    else
      (false, bundle)
  | _ => (true, bundle)

/-- Decrement of a bundle's `SpinCount`, as done by the `fetch_sub(1)` calls. -/
def decSpin (b : ReadyFiberBundle) : ReadyFiberBundle :=
  { b with SpinCount := b.SpinCount - 1 }

/-- The pinned-ready scan at the top of the dispatch loop
(`TaskScheduler::FiberStartFunc`, lines 168-190).  The worker walks its
`PinnedReadyFibers` list under `PinnedReadyFibersLock`; an entry is skipped
(`continue`) when
`!FiberIsSwitched.load() && SpinCount.fetch_sub(1) <= 0`
— so skipping decrements the skipped entry's `SpinCount` — and otherwise the
entry is selected: removed from the list (the loop breaks, leaving later
entries untouched) and its fiber becomes the fiber switched to.  Returns the
selected bundle, if any, and the list as the scan leaves it. -/
def PinnedReadyScan : List ReadyFiberBundle → Option ReadyFiberBundle × List ReadyFiberBundle
  | [] => (none, [])
  | b :: rest =>
    if b.FiberIsSwitched then (some b, rest)
    else if b.SpinCount ≤ 0 then
      let r := PinnedReadyScan rest
      (r.1, decSpin b :: r.2)
    else (some b, rest)

/-- The pop-and-test loop shared by both halves of
`TaskScheduler::GetNextHiPriTask` (lines 658-735): the `while Pop` loop over
the worker's own queue and the `while Steal` loop over a victim's queue are
line-identical apart from the queue end they take from.  Entries are taken
from the head of the given list; an entry passing `TaskIsReadyToExecute` is
returned (with the mutation the test performed), a failing entry is appended
to the scratch buffer. -/
def HiPriPopLoop : List TaskBundle → List TaskBundle →
    Option TaskBundle × List TaskBundle × List TaskBundle
  | [], buf => (none, [], buf)
  | b :: rest, buf =>
    let t := TaskIsReadyToExecute b
    if t.1 then (some t.2, rest, buf)
    else HiPriPopLoop rest (buf ++ [t.2])

/-- The steal half of `TaskScheduler::GetNextHiPriTask` (lines 681-709): visit
the other workers' queues round-robin starting from `HiPriLastSuccessfulSteal`,
skipping the current thread; drain each victim through the steal loop,
recording the victim's index as the new `HiPriLastSuccessfulSteal` whenever a
steal succeeds.  Queues are stored bottom-first, so stealing from the top means
walking the reversed list.  The fuel argument counts the remaining loop
iterations, starting at `n`. -/
def GetNextHiPriStealPhase (cur start n : Nat) :
    List (List TaskBundle) → List TaskBundle → Nat → Nat →
    Option TaskBundle × List (List TaskBundle) × List TaskBundle × Nat
  | queues, buf, lastSteal, 0 => (none, queues, buf, lastSteal)
  | queues, buf, lastSteal, Nat.succ k =>
    let idx := (start + (n - Nat.succ k)) % n
    if idx = cur then GetNextHiPriStealPhase cur start n queues buf lastSteal k
    else
      let q := queues.getD idx []
      let newLast := if q.isEmpty then lastSteal else idx
      match HiPriPopLoop q.reverse buf with
      | (some t, restRev, buf2) => (some t, queues.set idx restRev.reverse, buf2, newLast)
      | (none, restRev, buf2) =>
        GetNextHiPriStealPhase cur start n (queues.set idx restRev.reverse) buf2 newLast k

/-- Result of `GetNextHiPriTask`: the task found (if any), all hi-pri queues as
the call leaves them, the updated `HiPriLastSuccessfulSteal`, and whether the
cleanup phase woke all sleepers. -/
structure HiPriTaskResult where
  found : Option TaskBundle
  queues : List (List TaskBundle)
  HiPriLastSuccessfulSteal : Nat
  notifiedAll : Bool
deriving DecidableEq, Repr

/-- `TaskScheduler::GetNextHiPriTask` (lines 658-735).  First pop-and-test the
worker's own queue; if that is exhausted, steal-and-test from the other
workers.  Afterwards (the `cleanup:` label) the not-yet-ready entries held in
the scratch buffer are pushed back onto the own queue in reverse order of
popping, restoring their order at the pop end, and, when the policy is
`Sleep` and the buffer was non-empty, all sleeping workers are woken. -/
def GetNextHiPriTask (currentThreadIndex lastSteal : Nat)
    (queues : List (List TaskBundle)) (behavior : EmptyQueueBehavior) : HiPriTaskResult :=
  let own := queues.getD currentThreadIndex []
  let phase1 :=
    match HiPriPopLoop own [] with
    | (some t, rest, buf) => (some t, queues.set currentThreadIndex rest, buf, lastSteal)
    | (none, rest, buf) =>
      GetNextHiPriStealPhase currentThreadIndex lastSteal queues.length
        (queues.set currentThreadIndex rest) buf lastSteal queues.length
  match phase1 with
  | (r, qs, buf, ls) =>
    let qs2 := if buf.isEmpty then qs
               else qs.set currentThreadIndex (buf ++ qs.getD currentThreadIndex [])
    { found := r, queues := qs2, HiPriLastSuccessfulSteal := ls,
      notifiedAll := !buf.isEmpty && decide (behavior = EmptyQueueBehavior.Sleep) }

/-- Whether a task bundle, when it is a ready-fiber dummy, carries a bundle
whose `FiberIsSwitched` flag is set.  Real tasks satisfy this trivially. -/
def selectedDummySwitched (t : TaskBundle) : Bool :=
  match t.TaskToExecute.Function with
  | .readyFiberDummy rfb => rfb.FiberIsSwitched
  | _ => true

/-- Whether a queue entry is a ready-fiber dummy whose bundle has
`FiberIsSwitched = false`, i.e. a fiber listed as ready before its source
thread switched away from it. -/
def bundleListedUnswitched (t : TaskBundle) : Bool :=
  match t.TaskToExecute.Function with
  | .readyFiberDummy rfb => !rfb.FiberIsSwitched
  | _ => false

/-- The scheduler state touched by the publication paths: one hi-pri queue and
one pinned ready-fiber list per worker (queues bottom-first). -/
structure SchedulerState where
  hiPriQueues : List (List TaskBundle)
  pinnedReadyFibers : List (List ReadyFiberBundle)
deriving DecidableEq, Repr

/-- Condition-variable signals emitted by the publication paths. -/
inductive NotifyEvent where
  | notifyOne
  | notifyAll
deriving DecidableEq, Repr

/-- `TaskScheduler::AddReadyFiber` (lines 857-909).  `pinnedThreadIndex = none`
models `kNoThreadPinning`: the bundle is wrapped in a `ReadyFiberDummyTask`
task bundle with a null counter and pushed onto the current worker's hi-pri
queue (`GetCurrentThreadIndex()` results of `kInvalidIndex` fall back to
thread 0), waking one sleeper under the `Sleep` policy.  A pinned bundle is
appended to the target worker's pinned list under that worker's
`PinnedReadyFibersLock`, waking every sleeper under `Sleep` when the caller is
not the pinned worker. -/
def AddReadyFiber (s : SchedulerState) (rawThreadIndex : Nat)
    (pinnedThreadIndex : Option Nat) (bundle : ReadyFiberBundle)
    (behavior : EmptyQueueBehavior) : SchedulerState × List NotifyEvent :=
  match pinnedThreadIndex with
  | none =>
    let threadIndex := if rawThreadIndex = kInvalidIndex then 0 else rawThreadIndex
    let taskBundle : TaskBundle :=
      { TaskToExecute := { Function := .readyFiberDummy bundle }, hasCounter := false }
    let s2 := { s with hiPriQueues :=
      s.hiPriQueues.set threadIndex (taskBundle :: s.hiPriQueues.getD threadIndex []) }
    (s2, if behavior = EmptyQueueBehavior.Sleep then [.notifyOne] else [])
  | some pin =>
    let s2 := { s with pinnedReadyFibers :=
      s.pinnedReadyFibers.set pin (s.pinnedReadyFibers.getD pin [] ++ [bundle]) }
    (s2, if behavior = EmptyQueueBehavior.Sleep ∧ rawThreadIndex ≠ pin
         then [.notifyAll] else [])

/-- One parking iteration of `TaskScheduler::WaitForPredicate` (lines
996-1046), up to and including its `AddReadyFiber` call: decide pinning (pin
when requested or when the current fiber is the main fiber), create a
`ReadyFiberBundle` with `FiberIsSwitched = false` and `SpinCount = 15`, and
publish it through `AddReadyFiber` — all before the caller switches away (the
`SwitchToFiber` call comes later in the source, and `FiberIsSwitched` is only
set by `CleanUpOldFiber` on the fiber switched to).  Returns the new state,
the bundle as published, and the notifications sent. -/
def WaitForPredicatePark (s : SchedulerState) (rawThreadIndex currentFiber : Nat)
    (pinToCurrentThread currentFiberIsMain : Bool) (behavior : EmptyQueueBehavior) :
    SchedulerState × ReadyFiberBundle × List NotifyEvent :=
  let pinnedThreadIndex :=
    if pinToCurrentThread || currentFiberIsMain then some rawThreadIndex else none
  let bundle : ReadyFiberBundle :=
    { Fiber := currentFiber, FiberIsSwitched := false, SpinCount := 15 }
  let r := AddReadyFiber s rawThreadIndex pinnedThreadIndex bundle behavior
  (r.1, bundle, r.2)

/-- `ftl::FiberDestination`: where the previous fiber of a thread is headed
while the stale-fiber handshake is in flight. -/
inductive FiberDestination where
  | None
  | ToPool
  | ToWaiting
deriving DecidableEq, Repr

/-- The fields of `ftl::ThreadLocalStorage` that the modelled paths touch.
`OldFiberStoredFlag` is a pointer to a bundle's `FiberIsSwitched` atomic; it is
modelled by the bundle it points into.  `PinnedReadyFibers` and
`FailedQueuePopAttempts` feed the dispatch loop's empty-queue arm. -/
structure ThreadLocalStorage where
  CurrentFiber : Nat
  OldFiber : Option Nat
  OldFiberDestination : FiberDestination
  OldFiberStoredFlag : Option ReadyFiberBundle
  FailedQueuePopAttempts : Nat
  PinnedReadyFibers : List ReadyFiberBundle
deriving DecidableEq, Repr

/-- Observable actions of `WaitForCounterInternal`, in program order.
`drainPublisherLock` is the fast-path spin `while (counter->m_lock.load() > 0)`;
`addFiberToWaitingList` is the call into the counter (whose code is outside
`task_scheduler.cpp`), recording the bundle, target value and pinning it was
given. -/
inductive WaitEvent where
  | drainPublisherLock
  | createBundle (b : ReadyFiberBundle)
  | addFiberToWaitingList (b : ReadyFiberBundle) (value : Nat) (pinnedThreadIndex : Option Nat)
  | releaseBundle (b : ReadyFiberBundle)
  | switchToFiber (src dst : Nat)
deriving DecidableEq, Repr

/-- Result of `WaitForCounterInternal`: its action trace, the thread-local
storage as the call leaves it, and whether the calling fiber parked (switched
to a fresh fiber). -/
structure WaitOutcome where
  events : List WaitEvent
  tls : ThreadLocalStorage
  parked : Bool
deriving DecidableEq, Repr

/-- `TaskScheduler::WaitForCounterInternal` (lines 926-994).  The counter's
code lives outside this file, so its two contributions are parameters:
`counterValueAtEntry` is what `counter->m_value.load()` returns at entry, and
`alreadyDone` is what `counter->AddFiberToWaitingList` returns.  Fast path:
when the value already equals the target, spin until `counter->m_lock` drains
and return — no bundle is created.  Otherwise create a bundle
`{Fiber = CurrentFiber, FiberIsSwitched = false, SpinCount = 0}` with the
pinning decision (pin to the current thread when requested or when the current
fiber is the main fiber) and add it to the counter's waiting list; if the
counter was already done, release the bundle and return.  In every remaining
case fill in the TLS for the stale-fiber handshake and switch to the fresh
fiber `freeFiber` obtained from `GetNextFreeFiber`. -/
def WaitForCounterInternal (counterValueAtEntry value : Nat) (alreadyDone : Bool)
    (tls : ThreadLocalStorage) (currentThreadIndex : Nat)
    (currentFiberIsMain pinToCurrentThread : Bool) (freeFiber : Nat) : WaitOutcome :=
  if counterValueAtEntry = value then
    { events := [.drainPublisherLock], tls := tls, parked := false }
  else
    let currentFiber := tls.CurrentFiber
    let pinnedThreadIndex :=
      if pinToCurrentThread || currentFiberIsMain then some currentThreadIndex else none
    let bundle : ReadyFiberBundle :=
      { Fiber := currentFiber, FiberIsSwitched := false, SpinCount := 0 }
    if alreadyDone then
      { events := [.createBundle bundle, .addFiberToWaitingList bundle value pinnedThreadIndex,
                   .releaseBundle bundle],
        tls := tls, parked := false }
    else
      { events := [.createBundle bundle, .addFiberToWaitingList bundle value pinnedThreadIndex,
                   .switchToFiber currentFiber freeFiber],
        tls := { tls with
                 OldFiber := some currentFiber,
                 CurrentFiber := freeFiber,
                 OldFiberDestination := .ToWaiting,
                 OldFiberStoredFlag := some bundle },
        parked := true }

/-- What the empty-queue arm of the dispatch loop did: which locks it took,
whether it waited on the sleep condition variable, whether it yielded the OS
thread, and the worker's `FailedQueuePopAttempts` afterwards. -/
structure SleepOutcome where
  lockedSleepMutex : Bool
  lockedPinnedLock : Bool
  waitedOnCV : Bool
  yielded : Bool
  FailedQueuePopAttempts : Nat
deriving DecidableEq, Repr

/-- The empty-queue arm of the dispatch loop (`FiberStartFunc`, lines 274-321),
reached only when the worker found no pinned ready fiber, no hi-pri and no
lo-pri task, and the pinned scan saw an empty list (`readyWaitingFibers`
false).  Under `Yield`, after `kFailedPopAttemptsHeuristic` consecutive
failures the OS thread yields and the failure counter resets.  Under `Sleep`,
after the same threshold the worker takes the global `ThreadSleepLock`, then
its own `PinnedReadyFibersLock`, re-checks that its pinned list is empty, and
only then waits on `ThreadSleepCV` (releasing the pinned lock first); a
non-empty pinned list prevents the wait.  Under `Spin` nothing happens. -/
def EmptyQueueStep (behavior : EmptyQueueBehavior) (tls : ThreadLocalStorage) : SleepOutcome :=
  match behavior with
  | .Yield =>
    let a := tls.FailedQueuePopAttempts + 1
    if kFailedPopAttemptsHeuristic ≤ a then
      { lockedSleepMutex := false, lockedPinnedLock := false, waitedOnCV := false,
        yielded := true, FailedQueuePopAttempts := 0 }
    else
      { lockedSleepMutex := false, lockedPinnedLock := false, waitedOnCV := false,
        yielded := false, FailedQueuePopAttempts := a }
  | .Sleep =>
    let a := tls.FailedQueuePopAttempts + 1
    if kFailedPopAttemptsHeuristic ≤ a then
      if tls.PinnedReadyFibers.isEmpty then
        { lockedSleepMutex := true, lockedPinnedLock := true, waitedOnCV := true,
          yielded := false, FailedQueuePopAttempts := 0 }
      else
        { lockedSleepMutex := true, lockedPinnedLock := true, waitedOnCV := false,
          yielded := false, FailedQueuePopAttempts := 0 }
    else
      { lockedSleepMutex := false, lockedPinnedLock := false, waitedOnCV := false,
        yielded := false, FailedQueuePopAttempts := a }
  | .Spin =>
    { lockedSleepMutex := false, lockedPinnedLock := false, waitedOnCV := false,
      yielded := false, FailedQueuePopAttempts := tls.FailedQueuePopAttempts }

/-- `ftl::TaskPriority`.  In C++ this is an enum backed by an integer, so a
value other than the two named enumerators can reach `AddTask`/`AddTasks` (the
source defends against it with an `else` branch asserting
`Unknown task priority`); `UnknownValue` models such a value. -/
inductive TaskPriority where
  | High
  | Normal
  | UnknownValue (v : Nat)
deriving DecidableEq, Repr

/-- The assertion messages `FTL_ASSERT` is invoked with in `AddTask` and
`AddTasks`. -/
inductive AssertMessage where
  | addTaskNullFunction
  | addTasksNullFunction
  | unknownTaskPriority
deriving DecidableEq, Repr

/-- Observable actions of `AddTask`/`AddTasks`, in program order. -/
inductive AddEvent where
  | assertionFailed (m : AssertMessage)
  | counterAdd (n : Nat)
  | pushHiPri (b : TaskBundle)
  | pushLoPri (b : TaskBundle)
  | notifyOne
  | notifyAll
deriving DecidableEq, Repr

/-- Whether an event is a queue push. -/
def isPushEvent : AddEvent → Bool
  | .pushHiPri _ => true
  | .pushLoPri _ => true
  | _ => false

/-- `TaskScheduler::AddTask` (lines 528-560) as its sequence of observable
actions.  `debug` models the build flavour: `FTL_ASSERT` is modelled from the
spec (its definition is in a header outside the sources) as aborting in debug
builds and doing nothing in release builds.  After the null-function
assertion, a non-null counter is incremented by one, then the bundle is pushed
onto the current worker's hi- or lo-pri queue according to the priority (a
value that is neither `High` nor `Normal` matches neither `if` and nothing is
pushed), and finally one sleeper is woken under the `Sleep` policy. -/
def AddTask (debug : Bool) (task : Task) (priority : TaskPriority)
    (hasCounter : Bool) (behavior : EmptyQueueBehavior) : List AddEvent :=
  if debug && taskFunctionIsNull task then
    [.assertionFailed AssertMessage.addTaskNullFunction]
  else
    (if hasCounter then [AddEvent.counterAdd 1] else []) ++
    (match priority with
     | .High => [AddEvent.pushHiPri { TaskToExecute := task, hasCounter := hasCounter }]
     | .Normal => [AddEvent.pushLoPri { TaskToExecute := task, hasCounter := hasCounter }]
     | .UnknownValue _ => []) ++
    (if behavior = EmptyQueueBehavior.Sleep then [AddEvent.notifyOne] else [])

/-- The per-task loop of `AddTasks` (lines 585-590): each task is checked by
the null-function `FTL_ASSERT` (aborting in debug builds) and pushed onto the
selected queue.  Returns the events and whether the loop aborted. -/
def AddTasksLoop (debug hi hasCounter : Bool) : List Task → List AddEvent × Bool
  | [] => ([], false)
  | t :: rest =>
    if debug && taskFunctionIsNull t then
      ([.assertionFailed AssertMessage.addTasksNullFunction], true)
    else
      let r := AddTasksLoop debug hi hasCounter rest
      ((if hi then AddEvent.pushHiPri { TaskToExecute := t, hasCounter := hasCounter }
        else AddEvent.pushLoPri { TaskToExecute := t, hasCounter := hasCounter }) :: r.1,
       r.2)

/-- `TaskScheduler::AddTasks` (lines 562-598) as its sequence of observable
actions (`numTasks` is the length of the task list).  A non-null counter is
incremented by `numTasks` first; then the queue is selected by priority — a
value that is neither `High` nor `Normal` hits the `else` branch, which
asserts `Unknown task priority` (debug builds) and returns without enqueuing
anything; otherwise every task is pushed and, under the `Sleep` policy, all
sleepers are woken. -/
def AddTasks (debug : Bool) (tasks : List Task) (priority : TaskPriority)
    (hasCounter : Bool) (behavior : EmptyQueueBehavior) : List AddEvent :=
  (if hasCounter then [AddEvent.counterAdd tasks.length] else []) ++
  match priority with
  | .High =>
    let r := AddTasksLoop debug true hasCounter tasks
    r.1 ++ (if r.2 = false ∧ behavior = EmptyQueueBehavior.Sleep then [AddEvent.notifyAll] else [])
  | .Normal =>
    let r := AddTasksLoop debug false hasCounter tasks
    r.1 ++ (if r.2 = false ∧ behavior = EmptyQueueBehavior.Sleep then [AddEvent.notifyAll] else [])
  | .UnknownValue _ =>
    if debug then [.assertionFailed AssertMessage.unknownTaskPriority] else []

/-- The scheduler state `Init` touches, reduced to what the claims inspect:
the `m_initialized` flag, the worker count, and whether the side allocations
and assignments of `Init` have happened. -/
structure InitState where
  initialized : Bool
  numThreads : Nat
  behaviorSet : Option EmptyQueueBehavior
  threadsAllocated : Bool
  tlsAllocated : Bool
  mainFiberIsCurrentOnThread0 : Bool
deriving DecidableEq, Repr

/-- `TaskScheduler::Init` (lines 381-482).  A double call is rejected first,
returning `kInitErrorDoubleCall` before anything is modified.  Otherwise the
worker count is the requested pool size, or the hardware concurrency when that
is zero; the arrays are allocated, thread 0 reclaims the caller with the main
fiber as its current fiber, and worker threads `1..numThreads-1` are created in
order — the first creation failure returns
`kInitErrorFailedToCreateWorkerThread`.  On success `m_initialized` is set and
`0` is returned.  `createThreadOk i` models whether creating worker `i`
succeeds; partially created threads on the failure path are not modelled. -/
def Init (s : InitState) (threadPoolSize hardwareThreads : Nat)
    (behavior : EmptyQueueBehavior) (createThreadOk : Nat → Bool) : Int × InitState :=
  if s.initialized then (kInitErrorDoubleCall, s)
  else
    let n := if threadPoolSize = 0 then hardwareThreads else threadPoolSize
    let s1 : InitState :=
      { initialized := false, numThreads := n, behaviorSet := some behavior,
        threadsAllocated := true, tlsAllocated := true, mainFiberIsCurrentOnThread0 := true }
    if (List.range' 1 (n - 1)).all createThreadOk then
      (0, { s1 with initialized := true })
    else
      (kInitErrorFailedToCreateWorkerThread, s1)

/-- `TaskScheduler::GetCurrentThreadIndex` (lines 616-630): scan `m_threads`
for the calling thread's id and return the first matching index, or
`kInvalidIndex` when the caller is none of the scheduler's threads.  `threads`
is `m_threads` (as thread ids), of length `m_numThreads`. -/
def GetCurrentThreadIndex (threads : List Nat) (currentThreadId : Nat) : Nat :=
  match threads.findIdx? (fun t => t = currentThreadId) with
  | some i => i
  | none => kInvalidIndex

/-- The expression `m_tls[GetCurrentThreadIndex()]`, as written — without any
`kInvalidIndex` check — in `GetCurrentFiber` (line 636), `WaitForCounterInternal`
(line 940) and `WaitForPredicate` (line 998).  `none` models an out-of-bounds
access into the `m_tls` array. -/
def tlsAccess (threads : List Nat) (tls : List ThreadLocalStorage)
    (currentThreadId : Nat) : Option ThreadLocalStorage :=
  tls.get? (GetCurrentThreadIndex threads currentThreadId)

/-- `TaskScheduler::GetCurrentFiber` (lines 634-638): read `CurrentFiber` from
`m_tls[GetCurrentThreadIndex()]`. -/
def GetCurrentFiber (threads : List Nat) (tls : List ThreadLocalStorage)
    (currentThreadId : Nat) : Option Nat :=
  (tlsAccess threads tls currentThreadId).map ThreadLocalStorage.CurrentFiber

/-- In an event trace, some `counterAdd n` event strictly precedes every queue
push. -/
def addPrecedesPushes (l : List AddEvent) (n : Nat) : Prop :=
  ∀ i e, l.get? i = some e → isPushEvent e = true →
    ∃ j, j < i ∧ l.get? j = some (AddEvent.counterAdd n)

/-!  Helper lemmas (shared across the claim theorems below). -/

/-- An entry passing `TaskIsReadyToExecute` is either a real task or a dummy
whose `FiberIsSwitched` flag is set; the mutation the test performs preserves
the flag. -/
theorem taskReady_switched (b : TaskBundle) (h : (TaskIsReadyToExecute b).1 = true) :
    selectedDummySwitched (TaskIsReadyToExecute b).2 = true := by
  obtain ⟨⟨f⟩, hc⟩ := b
  cases f with
  | nullFn a => simp [TaskIsReadyToExecute, selectedDummySwitched]
  | realFn p a => simp [TaskIsReadyToExecute, selectedDummySwitched]
  | readyFiberDummy rfb =>
    by_cases hs : rfb.FiberIsSwitched <;>
      simp [TaskIsReadyToExecute, selectedDummySwitched, hs] at h ⊢

/-- Any entry the pop-and-test loop returns passed `TaskIsReadyToExecute`. -/
theorem hiPriPopLoop_found (q : List TaskBundle) (buf : List TaskBundle)
    (t : TaskBundle) (rest buf2 : List TaskBundle)
    (h : HiPriPopLoop q buf = (some t, rest, buf2)) :
    selectedDummySwitched t = true := by
  induction q generalizing buf with
  | nil => simp [HiPriPopLoop] at h
  | cons b q ih =>
    rw [HiPriPopLoop] at h
    by_cases hr : (TaskIsReadyToExecute b).1 = true
    · simp only [hr, if_true] at h
      obtain ⟨ht, -, -⟩ := Prod.mk.injEq .. ▸ h
      exact (Option.some.injEq .. ▸ ht) ▸ taskReady_switched b hr
    · simp only [Bool.not_eq_true] at hr
      simp only [hr, Bool.false_eq_true, if_false] at h
      exact ih _ h

/-- Any entry the steal phase returns passed `TaskIsReadyToExecute`. -/
theorem stealPhase_found (cur start n : Nat) (queues : List (List TaskBundle))
    (buf : List TaskBundle) (lastSteal fuel : Nat) (t : TaskBundle)
    (qs : List (List TaskBundle)) (buf2 : List TaskBundle) (ls : Nat)
    (h : GetNextHiPriStealPhase cur start n queues buf lastSteal fuel =
          (some t, qs, buf2, ls)) :
    selectedDummySwitched t = true := by
  induction fuel generalizing queues buf lastSteal with
  | zero => simp [GetNextHiPriStealPhase] at h
  | succ k ih =>
    rw [GetNextHiPriStealPhase] at h
    split at h
    · exact ih _ _ _ h
    · simp only [] at h
      rcases hpl : HiPriPopLoop
          ((queues.getD ((start + (n - Nat.succ k)) % n) []).reverse) buf
        with ⟨r, restRev, buf2'⟩
      rw [hpl] at h
      cases r with
      | some t0 =>
        simp only [Prod.mk.injEq, Option.some.injEq] at h
        exact h.1 ▸ hiPriPopLoop_found _ _ _ _ _ hpl
      | none => exact ih _ _ _ h

/-- Any entry `GetNextHiPriTask` returns passed `TaskIsReadyToExecute`; in
particular a returned ready-fiber dummy has `FiberIsSwitched = true`. -/
theorem getNextHiPriTask_found (cur ls : Nat) (queues : List (List TaskBundle))
    (bhv : EmptyQueueBehavior) (t : TaskBundle)
    (h : (GetNextHiPriTask cur ls queues bhv).found = some t) :
    selectedDummySwitched t = true := by
  simp only [GetNextHiPriTask] at h
  rcases h1 : HiPriPopLoop (queues.getD cur []) [] with ⟨r, rest, buf⟩
  rw [h1] at h
  cases r with
  | some t0 =>
    simp only [Option.some.injEq] at h
    exact h ▸ hiPriPopLoop_found _ _ _ _ _ h1
  | none =>
    simp only [] at h
    rcases h2 : GetNextHiPriStealPhase cur ls queues.length
        (queues.set cur rest) buf ls queues.length with ⟨r2, qs2, buf2, ls2⟩
    rw [h2] at h
    cases r2 with
    | some t2 =>
      simp only [Option.some.injEq] at h
      exact h ▸ stealPhase_found _ _ _ _ _ _ _ _ _ _ _ h2
    | none => simp at h

/-- Full characterization of the pop-and-test loop: a returned entry is the
image under `TaskIsReadyToExecute` of some entry of the queue that passed the
test, and every entry of the final scratch buffer either was already buffered
or is the image of a queue entry that failed the test. -/
theorem hiPriPopLoop_spec (q : List TaskBundle) (buf : List TaskBundle)
    (r : Option TaskBundle) (rest buf2 : List TaskBundle)
    (h : HiPriPopLoop q buf = (r, rest, buf2)) :
    (∀ t, r = some t → ∃ b ∈ q, TaskIsReadyToExecute b = (true, t)) ∧
    (∀ t ∈ buf2, t ∈ buf ∨ ∃ b ∈ q, TaskIsReadyToExecute b = (false, t)) := by
  induction q generalizing buf with
  | nil =>
    rw [HiPriPopLoop] at h
    injection h with h1 h23
    injection h23 with h2 h3
    subst h1
    subst h3
    exact ⟨fun t ht => absurd ht (by simp), fun t ht => Or.inl ht⟩
  | cons b q ih =>
    rw [HiPriPopLoop] at h
    by_cases hr : (TaskIsReadyToExecute b).1 = true
    · rw [if_pos hr] at h
      injection h with h1 h23
      injection h23 with h2 h3
      subst h1
      subst h3
      constructor
      · intro t ht
        have ht2 : (TaskIsReadyToExecute b).2 = t := by
          simpa using ht
        exact ⟨b, List.mem_cons_self b q, Prod.ext hr ht2⟩
      · intro t ht
        exact Or.inl ht
    · rw [if_neg hr] at h
      obtain ⟨ih1, ih2⟩ := ih (buf ++ [(TaskIsReadyToExecute b).2]) h
      constructor
      · intro t ht
        obtain ⟨b', hb', hbb⟩ := ih1 t ht
        exact ⟨b', List.mem_cons_of_mem _ hb', hbb⟩
      · intro t ht
        rcases ih2 t ht with hin | ⟨b', hb', hbb⟩
        · rcases List.mem_append.mp hin with h1 | h1
          · exact Or.inl h1
          · right
            refine ⟨b, List.mem_cons_self b q, ?_⟩
            have ht2 : t = (TaskIsReadyToExecute b).2 := by simpa using h1
            exact Prod.ext (by simpa using hr) ht2.symm
        · exact Or.inr ⟨b', List.mem_cons_of_mem _ hb', hbb⟩

/-!  Claim C1. -/

/-- C1 counterexample.  The claim states a parked fiber is never listed in any
task queue or pinned list until its bundle's `FiberIsSwitched` is true, on
every publication path including `AddReadyFiber` called by `WaitForPredicate`
before the caller switches away.  But on exactly that path the bundle is
published first: starting from an empty one-worker state, the parking step of
`WaitForPredicate` (fiber 42, unpinned) leaves a ready-fiber dummy in the
hi-pri queue whose bundle still has `FiberIsSwitched = false` — the flag only
becomes true later, when the fiber switched to runs `CleanUpOldFiber`. -/
theorem C1_counterexample :
    (WaitForPredicatePark ⟨[[]], [[]]⟩ 0 42 false false .Spin).1.hiPriQueues =
      [[{ TaskToExecute := { Function := .readyFiberDummy ⟨42, false, 15⟩ },
          hasCounter := false }]] ∧
    ((WaitForPredicatePark ⟨[[]], [[]]⟩ 0 42 false false .Spin).1.hiPriQueues.getD 0
        []).any bundleListedUnswitched = true := by decide

/-- C1, amended.  `WaitForPredicate` publishes its ready-fiber bundle through
`AddReadyFiber` before the caller switches away, while `FiberIsSwitched` is
still false (and `SpinCount` is 15); the `FiberIsSwitched` handshake is
instead enforced at consumption: `GetNextHiPriTask` only ever returns a
ready-fiber dummy whose bundle has `FiberIsSwitched = true`. -/
theorem C1_theorem :
    (∀ (s : SchedulerState) (raw fiber : Nat) (pin isMain : Bool)
        (bhv : EmptyQueueBehavior),
      (WaitForPredicatePark s raw fiber pin isMain bhv).2.1 =
        { Fiber := fiber, FiberIsSwitched := false, SpinCount := 15 }) ∧
    (∀ (cur ls : Nat) (queues : List (List TaskBundle)) (bhv : EmptyQueueBehavior)
        (t : TaskBundle),
      (GetNextHiPriTask cur ls queues bhv).found = some t →
        selectedDummySwitched t = true) := by
  constructor
  · intro s raw fiber pin isMain bhv
    rfl
  · intro cur ls queues bhv t h
    exact getNextHiPriTask_found cur ls queues bhv t h

/-- C1 witness: the consumption guard of `C1_theorem` applied to a concrete
queue holding one switched ready-fiber dummy. -/
theorem C1_witness :
    (GetNextHiPriTask 0 0
        [[{ TaskToExecute := { Function := .readyFiberDummy ⟨5, true, 0⟩ },
            hasCounter := false }]] .Spin).found =
      some { TaskToExecute := { Function := .readyFiberDummy ⟨5, true, -1⟩ },
             hasCounter := false } ∧
    selectedDummySwitched
      { TaskToExecute := { Function := .readyFiberDummy ⟨5, true, -1⟩ },
        hasCounter := false } = true :=
  ⟨by decide,
   C1_theorem.2 0 0
     [[{ TaskToExecute := { Function := .readyFiberDummy ⟨5, true, 0⟩ },
         hasCounter := false }]] .Spin
     { TaskToExecute := { Function := .readyFiberDummy ⟨5, true, -1⟩ },
       hasCounter := false } (by decide)⟩

/-!  Claim C2. -/

/-- C2 counterexample.  The claim says the scan selects the first entry whose
`FiberIsSwitched` is true or whose (decrementing) `SpinCount` has fallen to
`≤ 0`, and skips entries satisfying neither condition.  The code does the
opposite on the `SpinCount` side: an unswitched entry with `SpinCount = 0`
(claimed selectable) is skipped — only its `SpinCount` is decremented — while
an unswitched entry with `SpinCount = 5` (claimed skipped) is selected. -/
theorem C2_counterexample :
    PinnedReadyScan [⟨7, false, 0⟩] = (none, [⟨7, false, -1⟩]) ∧
    PinnedReadyScan [⟨7, false, 5⟩] = (some ⟨7, false, 5⟩, []) := by decide

/-- C2, amended.  Holding `PinnedReadyFibersLock`, the worker selects the
first pinned entry whose `FiberIsSwitched` is true or whose `SpinCount` was
still `> 0` at the test (the test decrements the `SpinCount` of unswitched
entries); the selected entry is removed (its bundle released, its fiber
switched to), and all entries before it — which are exactly those with
`FiberIsSwitched` false and `SpinCount` already `≤ 0` — are skipped, with
their `SpinCount` decremented, until a later round.  When nothing is selected,
every entry was unswitched with decayed `SpinCount`, and the whole list is
decremented. -/
theorem C2_theorem (l : List ReadyFiberBundle) :
    (∀ sel rest, PinnedReadyScan l = (some sel, rest) →
      ∃ pre post, l = pre ++ sel :: post ∧
        (sel.FiberIsSwitched = true ∨ 0 < sel.SpinCount) ∧
        (∀ b ∈ pre, b.FiberIsSwitched = false ∧ b.SpinCount ≤ 0) ∧
        rest = pre.map decSpin ++ post) ∧
    (∀ rest, PinnedReadyScan l = (none, rest) →
      (∀ b ∈ l, b.FiberIsSwitched = false ∧ b.SpinCount ≤ 0) ∧
      rest = l.map decSpin) := by
  induction l with
  | nil =>
    constructor
    · intro sel rest h
      rw [PinnedReadyScan] at h
      exact absurd h (by simp)
    · intro rest h
      rw [PinnedReadyScan] at h
      injection h with h1 h2
      subst h2
      exact ⟨by simp, by simp⟩
  | cons b l ih =>
    by_cases hb : b.FiberIsSwitched
    · constructor
      · intro sel rest h
        rw [PinnedReadyScan, if_pos hb] at h
        injection h with h1 h2
        have hsel : b = sel := by simpa using h1
        subst hsel
        subst h2
        exact ⟨[], l, by simp, Or.inl hb, by simp, by simp⟩
      · intro rest h
        rw [PinnedReadyScan, if_pos hb] at h
        exact absurd h (by simp)
    · by_cases hs : b.SpinCount ≤ 0
      · constructor
        · intro sel rest h
          rw [PinnedReadyScan, if_neg hb, if_pos hs] at h
          simp only [] at h
          rcases hl : PinnedReadyScan l with ⟨ro, rl⟩
          rw [hl] at h
          injection h with h1 h2
          subst h1
          subst h2
          obtain ⟨pre, post, hl2, hcond, hpre, hrest⟩ := ih.1 sel rl hl
          refine ⟨b :: pre, post, by simp [hl2], hcond, ?_, ?_⟩
          · intro b' hb'
            rcases List.mem_cons.mp hb' with rfl | h'
            · exact ⟨by simpa using hb, hs⟩
            · exact hpre b' h'
          · simp [hrest]
        · intro rest h
          rw [PinnedReadyScan, if_neg hb, if_pos hs] at h
          simp only [] at h
          rcases hl : PinnedReadyScan l with ⟨ro, rl⟩
          rw [hl] at h
          injection h with h1 h2
          subst h1
          subst h2
          obtain ⟨hall, hrl⟩ := ih.2 rl hl
          refine ⟨?_, by simp [hrl]⟩
          intro b' hb'
          rcases List.mem_cons.mp hb' with rfl | h'
          · exact ⟨by simpa using hb, hs⟩
          · exact hall b' h'
      · constructor
        · intro sel rest h
          rw [PinnedReadyScan, if_neg hb, if_neg hs] at h
          injection h with h1 h2
          have hsel : b = sel := by simpa using h1
          subst hsel
          subst h2
          exact ⟨[], l, by simp, Or.inr (by omega), by simp, by simp⟩
        · intro rest h
          rw [PinnedReadyScan, if_neg hb, if_neg hs] at h
          exact absurd h (by simp)

/-- C2 witness: `C2_theorem` applied to the one-entry list whose entry has
`FiberIsSwitched = true`: it is selected with an empty skipped prefix. -/
theorem C2_witness :
    PinnedReadyScan [⟨3, true, 0⟩] = (some ⟨3, true, 0⟩, []) ∧
    (∃ pre post, [(⟨3, true, 0⟩ : ReadyFiberBundle)] = pre ++ ⟨3, true, 0⟩ :: post ∧
      ((⟨3, true, 0⟩ : ReadyFiberBundle).FiberIsSwitched = true ∨
        0 < (⟨3, true, 0⟩ : ReadyFiberBundle).SpinCount) ∧
      (∀ b ∈ pre, b.FiberIsSwitched = false ∧ b.SpinCount ≤ 0) ∧
      ([] : List ReadyFiberBundle) = pre.map decSpin ++ post) :=
  ⟨by decide, (C2_theorem [⟨3, true, 0⟩]).1 ⟨3, true, 0⟩ [] (by decide)⟩

/-!  Claim C3. -/

/-- C3 counterexample.  The claim says a ready-fiber dummy is ready exactly
when its bundle's `FiberIsSwitched` is true OR its `SpinCount` has decayed to
`≤ 0`.  The code conjoins the two conditions instead
(`FiberIsSwitched.load() && SpinCount.fetch_sub(1) <= 0`): a dummy whose
`SpinCount` has decayed to `-1` but whose flag is false is not ready (first
conjunct), and a dummy whose flag is true but whose `SpinCount` is `5` is not
ready either (second conjunct), refuting both directions of the claimed
disjunction. -/
theorem C3_counterexample :
    ((TaskIsReadyToExecute
        { TaskToExecute := { Function := .readyFiberDummy ⟨7, false, -1⟩ },
          hasCounter := false }).1 = false ∧ (-1 : Int) ≤ 0) ∧
    (TaskIsReadyToExecute
        { TaskToExecute := { Function := .readyFiberDummy ⟨7, true, 5⟩ },
          hasCounter := false }).1 = false := by decide

/-- C3, amended.  `TaskIsReadyToExecute` returns true for every bundle whose
task function is not the `ReadyFiberDummyTask` sentinel; for a ready-fiber
dummy it returns true exactly when the bundle's `FiberIsSwitched` is true AND
its `SpinCount` (decremented by the test while the flag is true) had decayed
to `≤ 0`; and `GetNextHiPriTask` applies this test to every entry it pops or
steals: what it returns passed the test, what it holds back in the scratch
buffer failed it. -/
theorem C3_theorem :
    (∀ b : TaskBundle,
      (∀ rfb, b.TaskToExecute.Function ≠ TaskFunction.readyFiberDummy rfb) →
        TaskIsReadyToExecute b = (true, b)) ∧
    (∀ (rfb : ReadyFiberBundle) (hc : Bool),
      (TaskIsReadyToExecute
          { TaskToExecute := { Function := .readyFiberDummy rfb },
            hasCounter := hc }).1 =
        (rfb.FiberIsSwitched && decide (rfb.SpinCount ≤ 0))) ∧
    (∀ (q buf : List TaskBundle) (r : Option TaskBundle) (rest buf2 : List TaskBundle),
      HiPriPopLoop q buf = (r, rest, buf2) →
        (∀ t, r = some t → ∃ b ∈ q, TaskIsReadyToExecute b = (true, t)) ∧
        (∀ t ∈ buf2, t ∈ buf ∨ ∃ b ∈ q, TaskIsReadyToExecute b = (false, t))) := by
  refine ⟨?_, ?_, fun q buf r rest buf2 h => hiPriPopLoop_spec q buf r rest buf2 h⟩
  · intro b hnd
    obtain ⟨⟨f⟩, hc⟩ := b
    cases f with
    | nullFn a => rfl
    | realFn p a => rfl
    | readyFiberDummy rfb => exact absurd rfl (hnd rfb)
  · intro rfb hc
    by_cases hs : rfb.FiberIsSwitched <;>
      simp [TaskIsReadyToExecute, hs]

/-- C3 witness: `C3_theorem` applied to a concrete real task (always ready)
and to a concrete one-entry queue whose switched, decayed dummy is popped. -/
theorem C3_witness :
    TaskIsReadyToExecute
        { TaskToExecute := { Function := .realFn 1 2 }, hasCounter := false } =
      (true, { TaskToExecute := { Function := .realFn 1 2 }, hasCounter := false }) ∧
    (∃ b ∈ [({ TaskToExecute := { Function := .readyFiberDummy ⟨5, true, 0⟩ },
               hasCounter := false } : TaskBundle)],
      TaskIsReadyToExecute b =
        (true, { TaskToExecute := { Function := .readyFiberDummy ⟨5, true, -1⟩ },
                 hasCounter := false })) :=
  ⟨C3_theorem.1 _ (by intro rfb h; simp at h),
   (C3_theorem.2.2
      [{ TaskToExecute := { Function := .readyFiberDummy ⟨5, true, 0⟩ },
         hasCounter := false }] []
      (some { TaskToExecute := { Function := .readyFiberDummy ⟨5, true, -1⟩ },
              hasCounter := false }) [] [] (by decide)).1 _ rfl⟩

/-!  Claim C4. -/

/-- C4.  `WaitForCounterInternal` returns without parking in exactly two
cases: the fast path — the counter's value already equals the target at
entry, in which case the call only drains `counter.m_lock` and creates no
bundle — and the already-done path — `AddFiberToWaitingList` returned true,
in which case the freshly created bundle is released before returning.  In
every other case the calling fiber is recorded in the bundle,
`tls.OldFiberDestination` is set to `ToWaiting` with `OldFiberStoredFlag`
pointing at the bundle's `FiberIsSwitched`, and the thread switches to the
fresh fiber. -/
theorem C4_theorem (cv v : Nat) (ad : Bool) (tls : ThreadLocalStorage)
    (ti : Nat) (isMain pin : Bool) (ff : Nat) :
    ((WaitForCounterInternal cv v ad tls ti isMain pin ff).parked = false ↔
      (cv = v ∨ ad = true)) ∧
    (cv = v →
      WaitForCounterInternal cv v ad tls ti isMain pin ff =
        { events := [.drainPublisherLock], tls := tls, parked := false }) ∧
    (cv ≠ v → ad = true →
      WaitForCounterInternal cv v ad tls ti isMain pin ff =
        { events := [.createBundle ⟨tls.CurrentFiber, false, 0⟩,
                     .addFiberToWaitingList ⟨tls.CurrentFiber, false, 0⟩ v
                       (if pin || isMain then some ti else none),
                     .releaseBundle ⟨tls.CurrentFiber, false, 0⟩],
          tls := tls, parked := false }) ∧
    (cv ≠ v → ad = false →
      (WaitForCounterInternal cv v ad tls ti isMain pin ff).parked = true ∧
      (WaitForCounterInternal cv v ad tls ti isMain pin ff).tls =
        { tls with OldFiber := some tls.CurrentFiber, CurrentFiber := ff,
                   OldFiberDestination := .ToWaiting,
                   OldFiberStoredFlag := some ⟨tls.CurrentFiber, false, 0⟩ } ∧
      WaitEvent.switchToFiber tls.CurrentFiber ff ∈
        (WaitForCounterInternal cv v ad tls ti isMain pin ff).events) := by
  refine ⟨?_, ?_, ?_, ?_⟩
  · by_cases hcv : cv = v
    · simp [WaitForCounterInternal, hcv]
    · cases ad <;> simp [WaitForCounterInternal, hcv]
  · intro hcv
    simp [WaitForCounterInternal, hcv]
  · intro hcv had
    subst had
    simp [WaitForCounterInternal, hcv]
  · intro hcv had
    subst had
    simp [WaitForCounterInternal, hcv]

/-- C4 witness: `C4_theorem`'s parking case at a concrete call (counter value
1, target 0, not already done). -/
theorem C4_witness :
    (1 : Nat) ≠ 0 ∧
    ((WaitForCounterInternal 1 0 false ⟨10, none, .None, none, 0, []⟩ 0 false false 99).parked
        = true ∧
     (WaitForCounterInternal 1 0 false ⟨10, none, .None, none, 0, []⟩ 0 false false 99).tls =
       { CurrentFiber := 99, OldFiber := some 10, OldFiberDestination := .ToWaiting,
         OldFiberStoredFlag := some ⟨10, false, 0⟩, FailedQueuePopAttempts := 0,
         PinnedReadyFibers := [] } ∧
     WaitEvent.switchToFiber 10 99 ∈
       (WaitForCounterInternal 1 0 false ⟨10, none, .None, none, 0, []⟩ 0 false false 99).events) :=
  ⟨by decide,
   (C4_theorem 1 0 false ⟨10, none, .None, none, 0, []⟩ 0 false false 99).2.2.2
     (by decide) rfl⟩

/-!  Claim C5. -/

/-- C5.  For every `AddTask` call with a non-null counter, `counter->Add(1)`
happens before the bundle is pushed onto any queue, and for every `AddTasks`
call with a non-null counter, `counter->Add(numTasks)` happens before any of
the bundles is pushed: in the emitted traces, a `counterAdd` event strictly
precedes every push event. -/
theorem C5_theorem :
    (∀ (debug : Bool) (task : Task) (priority : TaskPriority)
        (behavior : EmptyQueueBehavior),
      addPrecedesPushes (AddTask debug task priority true behavior) 1) ∧
    (∀ (debug : Bool) (tasks : List Task) (priority : TaskPriority)
        (behavior : EmptyQueueBehavior),
      addPrecedesPushes (AddTasks debug tasks priority true behavior) tasks.length) := by
  constructor
  · intro debug task priority behavior i e hget hpush
    by_cases hd : (debug && taskFunctionIsNull task) = true
    · rw [AddTask.eq_def, if_pos hd] at hget
      cases i with
      | zero =>
        have he : e = .assertionFailed .addTaskNullFunction := by
          simpa using hget.symm
        rw [he] at hpush
        simp [isPushEvent] at hpush
      | succ n => simp at hget
    · cases i with
      | zero =>
        rw [AddTask.eq_def, if_neg hd] at hget
        have he : e = .counterAdd 1 := by
          simpa using hget.symm
        rw [he] at hpush
        simp [isPushEvent] at hpush
      | succ n =>
        refine ⟨0, Nat.succ_pos n, ?_⟩
        rw [AddTask.eq_def, if_neg hd]
        simp
  · intro debug tasks priority behavior i e hget hpush
    cases i with
    | zero =>
      rw [AddTasks.eq_def] at hget
      have he : e = .counterAdd tasks.length := by
        simpa using hget.symm
      rw [he] at hpush
      simp [isPushEvent] at hpush
    | succ n =>
      refine ⟨0, Nat.succ_pos n, ?_⟩
      rw [AddTasks.eq_def]
      simp

/-- C5 witness: `C5_theorem` applied to the push event of a concrete
release-build `AddTask` with a real task, high priority and a counter. -/
theorem C5_witness :
    (AddTask false { Function := .realFn 1 2 } .High true .Spin).get? 1 =
      some (.pushHiPri { TaskToExecute := { Function := .realFn 1 2 },
                         hasCounter := true }) ∧
    isPushEvent (AddEvent.pushHiPri { TaskToExecute := { Function := .realFn 1 2 },
                                      hasCounter := true }) = true ∧
    (∃ j, j < 1 ∧ (AddTask false { Function := .realFn 1 2 } .High true .Spin).get? j =
      some (.counterAdd 1)) :=
  ⟨by decide, by decide,
   C5_theorem.1 false { Function := .realFn 1 2 } .High .Spin 1
     (.pushHiPri { TaskToExecute := { Function := .realFn 1 2 }, hasCounter := true })
     (by decide) (by decide)⟩

/-!  Claim C6. -/

/-- C6.  Under `EmptyQueueBehavior::Sleep`, a worker that found no task and no
ready waiting fiber waits on the sleep condition variable only when this
failed pop attempt brings its count to at least `kFailedPopAttemptsHeuristic`
(25), and only after taking the global sleep mutex and its own
`PinnedReadyFibersLock` and finding its pinned ready-fiber list empty; a
non-empty pinned list prevents the wait. -/
theorem C6_theorem (tls : ThreadLocalStorage) :
    ((EmptyQueueStep .Sleep tls).waitedOnCV = true →
      kFailedPopAttemptsHeuristic ≤ tls.FailedQueuePopAttempts + 1 ∧
      (EmptyQueueStep .Sleep tls).lockedSleepMutex = true ∧
      (EmptyQueueStep .Sleep tls).lockedPinnedLock = true ∧
      tls.PinnedReadyFibers = []) ∧
    (tls.PinnedReadyFibers ≠ [] →
      (EmptyQueueStep .Sleep tls).waitedOnCV = false) := by
  constructor
  · intro hw
    by_cases ha : kFailedPopAttemptsHeuristic ≤ tls.FailedQueuePopAttempts + 1
    · by_cases hp : tls.PinnedReadyFibers.isEmpty = true
      · exact ⟨ha, by simp [EmptyQueueStep, ha, hp],
          by simp [EmptyQueueStep, ha, hp], List.isEmpty_iff.mp hp⟩
      · simp [EmptyQueueStep, ha, hp] at hw
    · simp [EmptyQueueStep, ha] at hw
  · intro hp
    by_cases ha : kFailedPopAttemptsHeuristic ≤ tls.FailedQueuePopAttempts + 1
    · have hp2 : tls.PinnedReadyFibers.isEmpty = false := by
        cases hl : tls.PinnedReadyFibers with
        | nil => exact absurd hl hp
        | cons a l => simp
      simp [EmptyQueueStep, ha, hp2]
    · simp [EmptyQueueStep, ha]

/-- C6 witness: `C6_theorem` at a worker with 24 prior failed attempts and an
empty pinned list, which does wait on the condition variable. -/
theorem C6_witness :
    (EmptyQueueStep .Sleep ⟨0, none, .None, none, 24, []⟩).waitedOnCV = true ∧
    (kFailedPopAttemptsHeuristic ≤ 24 + 1 ∧
     (EmptyQueueStep .Sleep ⟨0, none, .None, none, 24, []⟩).lockedSleepMutex = true ∧
     (EmptyQueueStep .Sleep ⟨0, none, .None, none, 24, []⟩).lockedPinnedLock = true ∧
     ([] : List ReadyFiberBundle) = []) :=
  ⟨by decide, (C6_theorem ⟨0, none, .None, none, 24, []⟩).1 (by decide)⟩

/-!  Claim C7. -/

/-- C7.  `Init` returns 0 on success; it returns `kInitErrorDoubleCall` (-30),
without modifying any scheduler state, when called while the scheduler is
already initialized; and it returns `kInitErrorFailedToCreateWorkerThread`
(-60) when creating any worker thread (indices `1..numThreads-1`) fails. -/
theorem C7_theorem (s : InitState) (tps hw : Nat) (bhv : EmptyQueueBehavior)
    (ok : Nat → Bool) :
    (s.initialized = true →
      Init s tps hw bhv ok = (kInitErrorDoubleCall, s)) ∧
    (s.initialized = false →
      ((∀ i, 1 ≤ i → i < (if tps = 0 then hw else tps) → ok i = true) →
        (Init s tps hw bhv ok).1 = 0 ∧ (Init s tps hw bhv ok).2.initialized = true) ∧
      ((∃ i, 1 ≤ i ∧ i < (if tps = 0 then hw else tps) ∧ ok i = false) →
        (Init s tps hw bhv ok).1 = kInitErrorFailedToCreateWorkerThread)) := by
  constructor
  · intro h
    simp [Init, h]
  · intro h
    constructor
    · intro hall
      have hok : ((List.range' 1 ((if tps = 0 then hw else tps) - 1)).all ok) = true := by
        rw [List.all_eq_true]
        intro i hi
        have hm := List.mem_range'_1.mp hi
        exact hall i hm.1 (by omega)
      simp [Init, h, hok]
    · rintro ⟨i, h1, h2, h3⟩
      have hok : ((List.range' 1 ((if tps = 0 then hw else tps) - 1)).all ok) = false := by
        rw [Bool.eq_false_iff]
        intro hall
        rw [List.all_eq_true] at hall
        have hm : i ∈ List.range' 1 ((if tps = 0 then hw else tps) - 1) :=
          List.mem_range'_1.mpr ⟨h1, by omega⟩
        rw [hall i hm] at h3
        cases h3
      simp [Init, h, hok]

/-- C7 witness: `C7_theorem` on an uninitialized scheduler, pool size 3, with
worker creation failing at index 2. -/
theorem C7_witness :
    (Init ⟨false, 0, none, false, false, false⟩ 3 8 .Spin (fun i => i ≠ 2)).1 =
      kInitErrorFailedToCreateWorkerThread ∧
    (1 ≤ 2 ∧ 2 < 3 ∧ (fun i => decide (i ≠ 2)) 2 = false) :=
  ⟨(C7_theorem ⟨false, 0, none, false, false, false⟩ 3 8 .Spin
      (fun i => i ≠ 2)).2 rfl |>.2 ⟨2, by decide, by decide, by decide⟩,
   by decide⟩

/-!  Claim C8. -/

/-- C8 counterexample.  The claim says that in release builds a null task
function is not enqueued.  But `AddTask`'s only guard is the debug-only
`FTL_ASSERT`: in a release build (`debug = false`) a task with a null
function pointer and `High` priority is pushed onto the hi-pri queue like any
other task (and the same happens per-task in `AddTasks`). -/
theorem C8_counterexample :
    AddTask false { Function := .nullFn 3 } .High true .Spin =
      [.counterAdd 1,
       .pushHiPri { TaskToExecute := { Function := .nullFn 3 }, hasCounter := true }] ∧
    (AddTask false { Function := .nullFn 3 } .High true .Spin).any isPushEvent = true ∧
    (AddTasks false [{ Function := .nullFn 3 }] .Normal false .Spin).any isPushEvent
      = true := by decide

/-- C8, amended.  A task whose `Function` pointer is null raises an assertion
in debug builds, both in `AddTask` and (per task) in `AddTasks`; in release
builds there is no runtime guard, and the null task is enqueued like any
other task of its priority. -/
theorem C8_theorem :
    (∀ (t : Task) (pr : TaskPriority) (hc : Bool) (bhv : EmptyQueueBehavior),
      taskFunctionIsNull t = true →
        AddTask true t pr hc bhv = [.assertionFailed .addTaskNullFunction]) ∧
    (∀ (hi hc : Bool) (t : Task) (rest : List Task),
      taskFunctionIsNull t = true →
        AddTasksLoop true hi hc (t :: rest) =
          ([.assertionFailed .addTasksNullFunction], true)) ∧
    (∀ (t : Task) (hc : Bool) (bhv : EmptyQueueBehavior),
      taskFunctionIsNull t = true →
        (AddTask false t .High hc bhv).any isPushEvent = true ∧
        (AddTask false t .Normal hc bhv).any isPushEvent = true) := by
  refine ⟨?_, ?_, ?_⟩
  · intro t pr hc bhv h
    simp [AddTask, h]
  · intro hi hc t rest h
    simp [AddTasksLoop, h]
  · intro t hc bhv h
    constructor <;> cases hc <;> simp [AddTask, isPushEvent]

/-- C8 witness: `C8_theorem` at a concrete null-function task: the debug
build asserts, the release build pushes. -/
theorem C8_witness :
    taskFunctionIsNull { Function := .nullFn 7 } = true ∧
    AddTask true { Function := .nullFn 7 } .Normal false .Spin =
      [.assertionFailed .addTaskNullFunction] ∧
    (AddTask false { Function := .nullFn 7 } .High false .Spin).any isPushEvent = true :=
  ⟨by decide,
   C8_theorem.1 { Function := .nullFn 7 } .Normal false .Spin (by decide),
   (C8_theorem.2.2 { Function := .nullFn 7 } false .Spin (by decide)).1⟩

/-!  Claim C9. -/

/-- When the calling thread is not among the scheduler's threads, the scan of
`GetCurrentThreadIndex` runs off the end and returns `kInvalidIndex`. -/
theorem gcti_not_mem (threads : List Nat) (cur : Nat) (h : cur ∉ threads) :
    GetCurrentThreadIndex threads cur = kInvalidIndex := by
  unfold GetCurrentThreadIndex
  have hn : threads.findIdx? (fun t => t = cur) = none := by
    rw [List.findIdx?_eq_none_iff]
    intro x hx
    simp only [decide_eq_false_iff_not]
    intro hxc
    subst hxc
    exact h hx
  rw [hn]

/-- When the calling thread is among the scheduler's threads, the index
`GetCurrentThreadIndex` returns is in bounds. -/
theorem gcti_mem (threads : List Nat) (cur : Nat) (h : cur ∈ threads) :
    GetCurrentThreadIndex threads cur < threads.length := by
  unfold GetCurrentThreadIndex
  have hsome : (threads.findIdx? (fun t => t = cur)).isSome = true := by
    rw [List.findIdx?_isSome, List.any_eq_true]
    exact ⟨cur, h, by simp⟩
  rcases hf : threads.findIdx? (fun t => t = cur) with _ | j
  · rw [hf] at hsome
    cases hsome
  · exact (List.findIdx?_eq_some_iff_findIdx_eq.mp hf).1

/-- C9.  `GetCurrentFiber`, `WaitForCounterInternal` and `WaitForPredicate`
index `m_tls` directly with `GetCurrentThreadIndex()` (modelled by
`tlsAccess`), with no `kInvalidIndex` check; the access is in bounds exactly
when the calling thread is one of the scheduler's `m_numThreads` threads, and
for any other thread `GetCurrentThreadIndex` returns `kInvalidIndex` and the
`m_tls` access is out of bounds.  (`m_tls` and `m_threads` have the same
length `m_numThreads`, which as an `unsigned` is at most `kInvalidIndex`.) -/
theorem C9_theorem (threads : List Nat) (tls : List ThreadLocalStorage) (cur : Nat)
    (hlen : tls.length = threads.length) (hbound : threads.length ≤ kInvalidIndex) :
    (cur ∉ threads →
      GetCurrentThreadIndex threads cur = kInvalidIndex ∧
      tlsAccess threads tls cur = none ∧
      GetCurrentFiber threads tls cur = none) ∧
    ((tlsAccess threads tls cur).isSome = true ↔ cur ∈ threads) := by
  constructor
  · intro h
    have h1 := gcti_not_mem threads cur h
    have h2 : tlsAccess threads tls cur = none := by
      unfold tlsAccess
      rw [h1]
      exact List.get?_eq_none.mpr (by omega)
    refine ⟨h1, h2, ?_⟩
    unfold GetCurrentFiber
    rw [h2]
    rfl
  · constructor
    · intro hs
      by_contra h
      have h1 := gcti_not_mem threads cur h
      unfold tlsAccess at hs
      rw [h1, List.get?_eq_none.mpr (by omega)] at hs
      cases hs
    · intro h
      have h1 := gcti_mem threads cur h
      unfold tlsAccess
      rw [List.get?_eq_get (by omega)]
      rfl

/-- C9 witness: `C9_theorem` with two registered threads and an outside
caller: the index is `kInvalidIndex` and the `m_tls` access is out of
bounds. -/
theorem C9_witness :
    ((10 : Nat) ∉ [3, 4]) ∧
    (GetCurrentThreadIndex [3, 4] 10 = kInvalidIndex ∧
     tlsAccess [3, 4] [⟨0, none, .None, none, 0, []⟩, ⟨1, none, .None, none, 0, []⟩] 10
       = none ∧
     GetCurrentFiber [3, 4] [⟨0, none, .None, none, 0, []⟩, ⟨1, none, .None, none, 0, []⟩] 10
       = none) :=
  ⟨by decide,
   (C9_theorem [3, 4] [⟨0, none, .None, none, 0, []⟩, ⟨1, none, .None, none, 0, []⟩] 10
      (by decide) (by decide)).1 (by decide)⟩

/-!  Claim C10. -/

/-- C10.  If `AddTask` is called with a priority that is neither `High` nor
`Normal` and a non-null counter, the counter is still incremented by 1 but
nothing is pushed onto any queue (so no matching `Decrement` can ever occur
for it); `AddTasks` in the same situation increments the counter by
`numTasks` and returns without enqueuing anything (in a debug build it also
raises the `Unknown task priority` assertion after the increment). -/
theorem C10_theorem (debug : Bool) (task : Task) (v : Nat)
    (bhv : EmptyQueueBehavior) (tasks : List Task)
    (hnull : taskFunctionIsNull task = false) :
    (AddEvent.counterAdd 1 ∈ AddTask debug task (.UnknownValue v) true bhv ∧
     (AddTask debug task (.UnknownValue v) true bhv).all (fun e => !isPushEvent e)
       = true) ∧
    (AddEvent.counterAdd tasks.length ∈ AddTasks debug tasks (.UnknownValue v) true bhv ∧
     (AddTasks debug tasks (.UnknownValue v) true bhv).all (fun e => !isPushEvent e)
       = true) := by
  constructor
  · have hd : (debug && taskFunctionIsNull task) = false := by
      rw [hnull]
      exact Bool.and_false debug
    cases bhv <;>
      simp [AddTask, hd, isPushEvent]
  · cases debug <;>
      simp [AddTasks, isPushEvent]

/-- C10 witness: `C10_theorem` at a concrete release-build call with an
out-of-range priority value. -/
theorem C10_witness :
    taskFunctionIsNull { Function := .realFn 1 2 } = false ∧
    (AddEvent.counterAdd 1 ∈
       AddTask false { Function := .realFn 1 2 } (.UnknownValue 9) true .Spin ∧
     (AddTask false { Function := .realFn 1 2 } (.UnknownValue 9) true .Spin).all
       (fun e => !isPushEvent e) = true) :=
  ⟨by decide,
   (C10_theorem false { Function := .realFn 1 2 } 9 .Spin [] (by decide)).1⟩

end Ftl
